import Mathlib

/-!
Verification development for the dependency-resolution and incremental-watch
subsystem of the TypeScript batch compiler front-end: the recursive code
resolver (`CodeResolver.resolveCode` in `src/compiler/referenceResolution.ts`),
the resolution dispatcher of the command-line driver (`CommandLineHost` in
the batch-compiler driver file), and the watch-mode reconciliation diff
(`onWatchedFileChange` in the same driver file).

The resolver is embedded as a fuel-indexed step function over an explicit
state that records the visited-key set, the dispatcher event trace, every
`readFile` attempt and every `findFile` probe.  The filesystem, the
preprocessing capability and the path-resolution host are abstract function
fields of an environment record, so concrete scenarios are built by
instantiating them with finite tables.
-/

/-! ## Path helpers

These helper functions live in the `pathUtils`/`typescript.ts` layer of the
repository, which
is not part of the sources under examination; they are modelled
from the description in the spec of path normalization and the two suffix
families (primary `.ts` / legacy `.str` sources, primary `.d.ts` /
legacy `.d.str` declarations). -/

/-- Modelled from the spec: a path is relative when it starts with a dot
(`./x`, `../x`). -/
def isRelative (p : String) : Bool :=
  match p.toList with
  | [] => false
  | c :: _ => c = '.'

/-- Modelled from the spec: a path is rooted when it starts with a slash or
backslash, or has a drive-letter colon in second position. -/
def isRooted (p : String) : Bool :=
  match p.toList with
  | [] => false
  | c :: rest =>
    c = '/' || c = '\\' ||
      (match rest with
       | c2 :: _ => c2 = ':'
       | [] => false)

/-- Suffix test on the character list of a string (kernel-computable
replacement for the byte-level core version). -/
def strEndsWith (p s : String) : Bool := s.data.isSuffixOf p.data

/-- Drop the last `n` characters of a string. -/
def strDropRight (p : String) (n : Nat) : String :=
  ⟨p.data.take (p.data.length - n)⟩

/-- Upper-case fold of a string, character by character. -/
def strToUpper (p : String) : String := ⟨p.data.map Char.toUpper⟩

/-- Modelled from the spec: canonicalize backslashes to forward slashes. -/
def switchToForwardSlashes (p : String) : String :=
  ⟨p.data.map (fun c => if c = '\\' then '/' else c)⟩

/-- Modelled from the spec: remove surrounding quote characters (double and
single quotes) from a path. -/
def stripQuotes (p : String) : String :=
  ⟨p.toList.filter (fun c => c ≠ '"' && c.toNat ≠ 39)⟩

/-- Modelled from the spec: recognizer for the legacy source suffix. -/
def isSTRFile (p : String) : Bool := strEndsWith p ".str"

/-- Modelled from the spec: recognizer for the primary source suffix. -/
def isTSFile (p : String) : Bool := strEndsWith p ".ts"

/-- Modelled from the spec: recognizer for the legacy declaration suffix. -/
def isDSTRFile (p : String) : Bool := strEndsWith p ".d.str"

/-- Modelled from the spec: recognizer for the primary declaration suffix. -/
def isDTSFile (p : String) : Bool := strEndsWith p ".d.ts"

/-- Modelled from the spec: strip a recognized source or declaration suffix
(checking the longer declaration suffixes first). -/
def trimModName (p : String) : String :=
  if strEndsWith p ".d.str" then strDropRight p 6
  else if strEndsWith p ".d.ts" then strDropRight p 5
  else if strEndsWith p ".str" then strDropRight p 4
  else if strEndsWith p ".ts" then strDropRight p 3
  else p

/-- Modelled from the spec: replace the recognized suffix with `.ts`. -/
def changePathToTS (p : String) : String := trimModName p ++ ".ts"

/-- Modelled from the spec: replace the recognized suffix with `.str`. -/
def changePathToSTR (p : String) : String := trimModName p ++ ".str"

/-- Modelled from the spec: replace the recognized suffix with `.d.ts`. -/
def changePathToDTS (p : String) : String := trimModName p ++ ".d.ts"

/-- Modelled from the spec: replace the recognized suffix with `.d.str`. -/
def changePathToDSTR (p : String) : String := trimModName p ++ ".d.str"

/-! ## Data model -/

/-- One reference extracted by preprocessing: a path plus its source
location (`IFileReference` in the source, line and character fields). -/
structure FileRef where
  path : String
  line : Nat
  col : Nat
deriving DecidableEq

/-- Result of preprocessing one loaded unit: its explicit-directive
references and its import-statement references, in order. -/
structure PreProcessedFileInfo where
  referencedFiles : List FileRef
  importedFiles : List FileRef
deriving DecidableEq

/-- A file found by the `findFile` capability of the host: content (possibly
null) plus the path it was found at (`IResolvedFile` in the source). -/
structure ResolvedFile where
  content : Option String
  path : String
deriving DecidableEq

/-- The file-system and preprocessing capabilities consumed by the resolver
(`IFileSystemObject` plus the `preProcessFile` capability).  `readFile`
returns `none` where the source host throws a not-found error. -/
structure FsHost where
  resolvePath : String → String
  readFile : String → Option String
  findFile : String → String → Option ResolvedFile
  dirName : String → String
  preProcessFile : String → String → PreProcessedFileInfo

/-- The compilation settings consulted by the resolver. -/
structure Settings where
  useCaseSensitiveFileResolution : Bool

/-- The environment a `CodeResolver` is bound to: settings plus host. -/
structure Env where
  settings : Settings
  host : FsHost

/-- One dispatcher callback occurrence (`IResolutionDispatcher`). -/
inductive Event where
  | postResolution (path : String) (content : String)
  | postResolutionError (errorFile : String) (ref : FileRef) (msg : String)
deriving DecidableEq

/-- Resolver state: the visited-key set (most recent first), the dispatcher
event trace, the chronological list of `readFile` attempts, and the
chronological list of `findFile` probes (directory, name). -/
structure RState where
  visited : List String
  events : List Event
  reads : List String
  probes : List (String × String)
deriving DecidableEq

def RState.logRead (st : RState) (p : String) : RState :=
  { st with reads := st.reads ++ [p] }

def RState.logProbe (st : RState) (dir name : String) : RState :=
  { st with probes := st.probes ++ [(dir, name)] }

def RState.logEvent (st : RState) (e : Event) : RState :=
  { st with events := st.events ++ [e] }

def initState : RState := ⟨[], [], [], []⟩

/-! ## The resolver

`resolveCode` normalizes the reference path, folds it to the visited-set
key, deduplicates, acquires content by the direct or the search strategy,
and recurses into the own references of the acquired unit before dispatching the
unit itself.  The mutually recursive pieces (per-unit processing, the
explicit-reference loop, the import loop) are combined into one fuel-indexed
step function over a request type, so that the whole definition is
structurally recursive on the fuel and computes by kernel reduction. -/

/-- Path normalization performed at the top of `resolveCode`: resolve
relative paths against the parent, leave rooted paths and bare search names
alone, prefix other bare names with the parent, append the default `.ts`
suffix when no source suffix is present, then canonicalize slashes and
strip quotes. -/
def normalizeReferencePath (env : Env) (referencePath parentPath : String)
    (performSearch : Bool) : String :=
  let isRelativePath := isRelative referencePath
  let isRootedPath := if isRelativePath then false else isRooted referencePath
  let normalizedPath :=
    if isRelativePath then env.host.resolvePath (parentPath ++ "/" ++ referencePath)
    else if isRootedPath || parentPath = "" || performSearch then referencePath
    else parentPath ++ "/" ++ referencePath
  let normalizedPath :=
    if !isSTRFile normalizedPath && !isTSFile normalizedPath then normalizedPath ++ ".ts"
    else normalizedPath
  switchToForwardSlashes (stripQuotes normalizedPath)

/-- The visited-set key (`absoluteModuleID`): the normalized path, upper
case folded unless case-sensitive resolution is on. -/
def moduleKey (env : Env) (normalizedPath : String) : String :=
  if env.settings.useCaseSensitiveFileResolution then normalizedPath
  else strToUpper normalizedPath

/-- The guard selecting the direct strategy: a relative or rooted path, or
no search requested. -/
def directStrategySelected (referencePath : String) (performSearch : Bool) : Bool :=
  let isRelativePath := isRelative referencePath
  let isRootedPath := if isRelativePath then false else isRooted referencePath
  isRelativePath || isRootedPath || !performSearch

/-- The suffix swap between the two source families used as the first
fallback of both strategies. -/
def swapSourceSuffix (p : String) : String :=
  if isSTRFile p then changePathToTS p
  else if isTSFile p then changePathToSTR p
  else p

/-- The error message reported for a self-referencing explicit directive. -/
def selfReferenceMessage : String :=
  "Incorrect reference: File contains reference to itself."

/-- The error message reported when an explicit directive fails to resolve. -/
def referenceFailureMessage (p : String) : String :=
  "Incorrect reference: referenced file: \"" ++ p ++ "\" cannot be resolved."

/-- The error message reported when an import fails to resolve. -/
def importFailureMessage (p : String) : String :=
  "Incorrect reference: imported file: \"" ++ p ++ "\" cannot be resolved."

/-- Requests for the resolver step function: a `resolveCode` call, the
post-acquisition processing of one unit, the explicit-reference loop, and
the import loop. -/
inductive Req where
  | resolveReq (referencePath parentPath : String) (performSearch : Bool)
  | unitReq (path content : String)
  | refsReq (refs : List FileRef) (rootDir resolvedFilePath : String)
  | impsReq (imps : List FileRef) (rootDir resolvedFilePath : String)

/-- The resolver, embedded as a fuel-indexed step function.  `none` means
the fuel ran out; `some (b, st)` is the boolean return value of the source plus
the final state. -/
def step (env : Env) : Nat → Req → RState → Option (Bool × RState)
  | 0, _, _ => none
  | fuel + 1, req, st =>
    match req with
    | .resolveReq referencePath parentPath performSearch =>
      let normalizedPath := normalizeReferencePath env referencePath parentPath performSearch
      let absoluteModuleID := moduleKey env normalizedPath
      if st.visited.contains absoluteModuleID then some (true, st)
      else if directStrategySelected referencePath performSearch then
        -- direct strategy: read the normalized path, then the source-suffix
        -- swap, then `.d.str`, then `.d.ts`; all four failing means failure
        let p1 := normalizedPath
        let st1 := st.logRead p1
        match env.host.readFile p1 with
        | some content =>
          step env fuel (.unitReq p1 content) { st1 with visited := absoluteModuleID :: st1.visited }
        | none =>
          let p2 := swapSourceSuffix p1
          let st2 := st1.logRead p2
          match env.host.readFile p2 with
          | some content =>
            step env fuel (.unitReq p2 content) { st2 with visited := absoluteModuleID :: st2.visited }
          | none =>
            let p3 := changePathToDSTR p2
            let st3 := st2.logRead p3
            match env.host.readFile p3 with
            | some content =>
              step env fuel (.unitReq p3 content) { st3 with visited := absoluteModuleID :: st3.visited }
            | none =>
              let p4 := changePathToDTS p3
              let st4 := st3.logRead p4
              match env.host.readFile p4 with
              | some content =>
                step env fuel (.unitReq p4 content) { st4 with visited := absoluteModuleID :: st4.visited }
              | none => some (false, st4)
      else
        -- search strategy: probe `findFile` with the normalized name, the
        -- source-suffix swap, then `.d.ts`, then `.d.str`; a total miss
        -- falls through to the common return, which yields true
        let q1 := normalizedPath
        let st1 := st.logProbe parentPath q1
        match env.host.findFile parentPath q1 with
        | some rf =>
          let foundPath := switchToForwardSlashes (stripQuotes rf.path)
          let st' := { st1 with visited := absoluteModuleID :: st1.visited }
          match rf.content with
          | some content => step env fuel (.unitReq foundPath content) st'
          | none => some (true, st')
        | none =>
          let q2 := swapSourceSuffix q1
          let st2 := st1.logProbe parentPath q2
          match env.host.findFile parentPath q2 with
          | some rf =>
            let foundPath := switchToForwardSlashes (stripQuotes rf.path)
            let st' := { st2 with visited := absoluteModuleID :: st2.visited }
            match rf.content with
            | some content => step env fuel (.unitReq foundPath content) st'
            | none => some (true, st')
          | none =>
            let q3 := changePathToDTS q2
            let st3 := st2.logProbe parentPath q3
            match env.host.findFile parentPath q3 with
            | some rf =>
              let foundPath := switchToForwardSlashes (stripQuotes rf.path)
              let st' := { st3 with visited := absoluteModuleID :: st3.visited }
              match rf.content with
              | some content => step env fuel (.unitReq foundPath content) st'
              | none => some (true, st')
            | none =>
              let q4 := changePathToDSTR q3
              let st4 := st3.logProbe parentPath q4
              match env.host.findFile parentPath q4 with
              | some rf =>
                let foundPath := switchToForwardSlashes (stripQuotes rf.path)
                let st' := { st4 with visited := absoluteModuleID :: st4.visited }
                match rf.content with
                | some content => step env fuel (.unitReq foundPath content) st'
                | none => some (true, st')
              | none => some (true, st4)
    | .unitReq path content =>
      let rootDir := env.host.dirName path
      let info := env.host.preProcessFile path content
      let resolvedFilePath := env.host.resolvePath path
      match step env fuel (.refsReq info.referencedFiles rootDir resolvedFilePath) st with
      | none => none
      | some (_, st1) =>
        match step env fuel (.impsReq info.importedFiles rootDir resolvedFilePath) st1 with
        | none => none
        | some (_, st2) => some (true, st2.logEvent (.postResolution path content))
    | .refsReq refs rootDir resolvedFilePath =>
      match refs with
      | [] => some (true, st)
      | r :: rest =>
        let np := env.host.resolvePath (if isRooted r.path then r.path else rootDir ++ "/" ++ r.path)
        if resolvedFilePath = np then
          step env fuel (.refsReq rest rootDir resolvedFilePath)
            (st.logEvent (.postResolutionError np r selfReferenceMessage))
        else
          match step env fuel (.resolveReq r.path rootDir false) st with
          | none => none
          | some (ok, st1) =>
            let st2 := if ok then st1
              else st1.logEvent (.postResolutionError resolvedFilePath r (referenceFailureMessage r.path))
            step env fuel (.refsReq rest rootDir resolvedFilePath) st2
    | .impsReq imps rootDir resolvedFilePath =>
      match imps with
      | [] => some (true, st)
      | r :: rest =>
        match step env fuel (.resolveReq r.path rootDir true) st with
        | none => none
        | some (ok, st1) =>
          let st2 := if ok then st1
            else st1.logEvent (.postResolutionError resolvedFilePath r (importFailureMessage r.path))
          step env fuel (.impsReq rest rootDir resolvedFilePath) st2
termination_by structural fuel _ _ => fuel

/-- `CodeResolver.resolveCode`, as a wrapper over the step function. -/
def resolveCode (env : Env) (fuel : Nat) (referencePath parentPath : String)
    (performSearch : Bool) (st : RState) : Option (Bool × RState) :=
  step env fuel (.resolveReq referencePath parentPath performSearch) st

/-! ## The command-line driver (`CommandLineHost`) -/

/-- `CommandLineHost.getPathIdentifier`: case-fold unless resolution is
case-sensitive. -/
def getPathIdentifier (caseSensitive : Bool) (p : String) : String :=
  if caseSensitive then p else strToUpper p

/-- Entry loop of `CommandLineHost.resolveCompilationEnvironment`: for each
entry unit, resolve its path, canonicalize slashes, and run the resolver
with empty parent path and no search. -/
def resolveEntries (env : Env) (fuel : Nat) : List String → RState → Option RState
  | [], st => some st
  | p :: rest, st =>
    let path := switchToForwardSlashes (env.host.resolvePath p)
    match resolveCode env fuel path "" false st with
    | none => none
    | some (_, st') => resolveEntries env fuel rest st'

/-- The `postResolution` dispatcher of the driver, replayed over the event
trace: push each newly resolved unit onto the environment code list unless its
path identifier was already resolved. -/
def buildResolvedCode (caseSensitive : Bool) :
    List Event → List String → List (String × String)
  | [], _ => []
  | .postResolution p c :: rest, resolved =>
    let pid := getPathIdentifier caseSensitive p
    if resolved.contains pid then buildResolvedCode caseSensitive rest resolved
    else (p, c) :: buildResolvedCode caseSensitive rest (pid :: resolved)
  | .postResolutionError _ _ _ :: rest, resolved =>
    buildResolvedCode caseSensitive rest resolved

/-- The paths of the `postResolution` events of a trace, in call order. -/
def postPaths (events : List Event) : List String :=
  events.filterMap fun e =>
    match e with
    | .postResolution p _ => some p
    | .postResolutionError _ _ _ => none

/-- The driver rendering of one `postResolutionError` for user display
(the dispatcher lambda in `resolveCompilationEnvironment`). -/
def postResolutionErrorMessage (errorFile : String) (line col : Nat)
    (errorMessage : String) : String :=
  errorFile ++ "(" ++ toString line ++ "," ++ toString col ++ ") " ++
    (if errorMessage = "" then "" else ": " ++ errorMessage)

/-! ## Watch-mode reconciliation (`onWatchedFileChange`) -/

/-- Character-list lexicographic comparison, modelling the string
comparison used by the driver (`localeCompare` and the default `sort()`). -/
def charListCompare : List Char → List Char → Ordering
  | [], [] => .eq
  | [], _ :: _ => .lt
  | _ :: _, [] => .gt
  | a :: as, b :: bs =>
    if a.toNat < b.toNat then .lt
    else if b.toNat < a.toNat then .gt
    else charListCompare as bs

/-- String comparison for the watch reconciler. -/
def strCompare (a b : String) : Ordering := charListCompare a.data b.data

/-- Insertion into a sorted list of paths, for the `sort()` the driver runs on the
freshly resolved file list. -/
def insertSorted (x : String) : List String → List String
  | [] => [x]
  | y :: ys => if strCompare x y = .gt then y :: insertSorted x ys else x :: y :: ys

/-- The `sort()` the driver runs on the freshly resolved file list. -/
def sortStrings (l : List String) : List String := l.foldr insertSorted []

/-- The two-pointer merge diff of `onWatchedFileChange`, fuel-indexed so
the definition is structurally recursive (every loop iteration consumes at
least one list element, so fuel beyond the summed lengths never runs out):
equal heads are skipped, an element only in the old list is removed, an
element only in the new list is added; unmatched tails are removed and
added wholesale.  Returns the removed and the added paths in operation
order. -/
def watchReconcileFuel : Nat → List String → List String → List String × List String
  | 0, _, _ => ([], [])
  | _ + 1, [], news => ([], news)
  | f + 1, o :: olds, [] =>
    let (r, a) := watchReconcileFuel f olds []
    (o :: r, a)
  | f + 1, o :: olds, n :: news =>
    match strCompare o n with
    | .eq => watchReconcileFuel f olds news
    | .lt =>
      let (r, a) := watchReconcileFuel f olds (n :: news)
      (o :: r, a)
    | .gt =>
      let (r, a) := watchReconcileFuel f (o :: olds) news
      (r, n :: a)

/-- The merge diff with enough fuel for both lists. -/
def watchReconcile (olds news : List String) : List String × List String :=
  watchReconcileFuel (olds.length + news.length + 1) olds news

/-- One run of the watch reconciliation: sort the fresh list, diff it
against the previous watched list, and store the fresh sorted list.
Returns (removed, added, stored). -/
def onWatchedFileChangeDiff (oldFiles newFilesUnsorted : List String) :
    List String × List String × List String :=
  let newFiles := sortStrings newFilesUnsorted
  let (removed, added) := watchReconcile oldFiles newFiles
  (removed, added, newFiles)

/-! ## Concrete hosts used by the scenario theorems -/

/-- Host for the end-to-end scenario: entry `src/main.ts` with an explicit
directive to `util.ts` and an import of `lib`; `lib` imports `core`. -/
def envC1 : Env :=
  { settings := ⟨false⟩,
    host :=
      { resolvePath := id,
        readFile := fun p =>
          [("src/main.ts", "M"), ("src/util.ts", "U"),
           ("src/lib.ts", "L"), ("src/core.ts", "C")].lookup p,
        findFile := fun dir name =>
          if dir = "src" && name = "lib.ts" then some ⟨some "L", "src/lib.ts"⟩
          else if dir = "src" && name = "core.ts" then some ⟨some "C", "src/core.ts"⟩
          else none,
        dirName := fun _ => "src",
        preProcessFile := fun p _ =>
          if p = "src/main.ts" then ⟨[⟨"util.ts", 1, 0⟩], [⟨"lib", 2, 0⟩]⟩
          else if p = "src/lib.ts" then ⟨[], [⟨"core", 3, 0⟩]⟩
          else ⟨[], []⟩ } }

/-- Host on which every read and every probe misses. -/
def envMiss : Env :=
  { settings := ⟨false⟩,
    host := { resolvePath := id, readFile := fun _ => none, findFile := fun _ _ => none,
              dirName := fun _ => "", preProcessFile := fun _ _ => ⟨[], []⟩ } }

/-- Host whose only file is `x.d.ts`, reachable both as the declaration
fallback of a reference to `x` and directly by name. -/
def envAlias : Env :=
  { settings := ⟨false⟩,
    host := { resolvePath := id,
              readFile := fun p => if p = "x.d.ts" then some "D" else none,
              findFile := fun _ _ => none, dirName := fun _ => "",
              preProcessFile := fun _ _ => ⟨[], []⟩ } }

/-- Host with the cyclic reference graph: `a.ts` references `b.ts` and
`b.ts` references `a.ts`. -/
def envAB : Env :=
  { settings := ⟨false⟩,
    host := { resolvePath := id,
              readFile := fun p => [("a.ts", "A"), ("b.ts", "B")].lookup p,
              findFile := fun _ _ => none, dirName := fun _ => "",
              preProcessFile := fun p _ =>
                if p = "a.ts" then ⟨[⟨"b.ts", 1, 0⟩], []⟩
                else if p = "b.ts" then ⟨[⟨"a.ts", 1, 0⟩], []⟩
                else ⟨[], []⟩ } }

/-- Host where `dir/m.ts` carries an explicit directive to itself followed
by one to `u.ts`. -/
def envSelf : Env :=
  { settings := ⟨false⟩,
    host := { resolvePath := id,
              readFile := fun p => [("dir/m.ts", "M"), ("dir/u.ts", "U")].lookup p,
              findFile := fun _ _ => none, dirName := fun _ => "dir",
              preProcessFile := fun p _ =>
                if p = "dir/m.ts" then ⟨[⟨"m.ts", 1, 0⟩, ⟨"u.ts", 2, 0⟩], []⟩
                else ⟨[], []⟩ } }

/-- Host with the single reference-free file `a.ts`. -/
def envSingle : Env :=
  { settings := ⟨false⟩,
    host := { resolvePath := id,
              readFile := fun p => if p = "a.ts" then some "AA" else none,
              findFile := fun _ _ => none, dirName := fun _ => "",
              preProcessFile := fun _ _ => ⟨[], []⟩ } }

/-! ## Claim theorems -/

/-- C1: in the resolution pass whose entry file `src/main.ts` has an
explicit directive to `util.ts` and an import of `lib`, where `util` has no
references and `lib` imports `core`, the dispatcher receives
`postResolution` in the order util, core, lib, main (children fully
resolved and dispatched before their referencer), and the final
CompilationEnvironment code sequence is exactly these four units with no
duplicate paths. -/
theorem c1_end_to_end_order_and_dedup :
    (resolveEntries envC1 20 ["src/main.ts"] initState).map
        (fun st => (postPaths st.events, buildResolvedCode false st.events [])) =
      some (["src/util.ts", "src/core.ts", "src/lib.ts", "src/main.ts"],
        [("src/util.ts", "U"), ("src/core.ts", "C"),
         ("src/lib.ts", "L"), ("src/main.ts", "M")]) ∧
    (["src/util.ts", "src/core.ts", "src/lib.ts", "src/main.ts"] : List String).Nodup := by
  exact ⟨by decide, by decide⟩

/-- C5: with previous watched list `[a,b,d]` and freshly resolved list
`[b,c,d,e]`, one reconciliation run removes exactly `a`, adds exactly `c`
and `e`, touches neither `b` nor `d`, and stores `[b,c,d,e]`. -/
theorem c5_watch_diff :
    onWatchedFileChangeDiff ["a", "b", "d"] ["b", "c", "d", "e"] =
      (["a"], ["c", "e"], ["b", "c", "d", "e"]) := by
  decide

/-- C6 counterexample: a resolution pass over the acyclic graph with entry
references `x` and `x.d.ts`, where only the physical file `x.d.ts` exists,
reads that one physical file twice in a single pass (once as the
declaration fallback of `x`, once directly), so a pass does not read each
physical file at most once. -/
theorem c6_counterexample_file_read_twice :
    (resolveEntries envAlias 10 ["x", "x.d.ts"] initState).map
        (fun st => (st.reads.count "x.d.ts", postPaths st.events)) =
      some (2, ["x.d.ts", "x.d.ts"]) ∧
    envAlias.host.readFile "x.d.ts" = some "D" := by
  exact ⟨by decide, by decide⟩

/-- C6 amended: on the cyclic reference graph where `a.ts` references
`b.ts` and `b.ts` references `a.ts`, the resolution pass terminates with
success, each of the two files is read exactly once, and both are
dispatched via `postResolution` exactly once (the back-edge to `a.ts` hits
the visited set and is a no-op). -/
theorem c6_amended_cycle_termination :
    (resolveCode envAB 10 "a.ts" "" false initState).map
        (fun r => (r.1, r.2.reads, postPaths r.2.events)) =
      some (true, ["a.ts", "b.ts"], ["b.ts", "a.ts"]) := by
  decide

/-- C10: the visited key of a reference is computed from the normalized
path before extension fallback: resolving `x` acquires content at the
fallback path `x.d.ts` and dispatches the unit under that path, while the
visited set records only the key `X.TS` of the original suffix; a later
reference naming `x.d.ts` directly is therefore not deduplicated, reads
the same on-disk file a second time, and triggers a second
`postResolution` for it. -/
theorem c10_fallback_alias_not_deduplicated :
    moduleKey envAlias (normalizeReferencePath envAlias "x" "" false) = "X.TS" ∧
    (resolveCode envAlias 10 "x" "" false initState).map
        (fun r => (r.1, r.2.visited, r.2.reads, postPaths r.2.events)) =
      some (true, ["X.TS"], ["x.ts", "x.str", "x.d.str", "x.d.ts"], ["x.d.ts"]) ∧
    ((resolveCode envAlias 10 "x" "" false initState).bind
        (fun r => resolveCode envAlias 10 "x.d.ts" "" false r.2)).map
        (fun r => (r.1, r.2.visited, r.2.reads.count "x.d.ts", postPaths r.2.events)) =
      some (true, ["X.D.TS", "X.TS"], 2, ["x.d.ts", "x.d.ts"]) := by
  exact ⟨by decide, by decide, by decide⟩

/-- C2 counterexample: on a host where every read and probe misses, a
search-strategy call (`performSearch` true, bare path, nonempty parent)
returns `true` although no content was acquired (no visited entry, no
dispatcher event, only the four failed probes), so `resolveCode` does not
return false whenever content could not be acquired. -/
theorem c2_counterexample_search_failure_returns_true :
    resolveCode envMiss 5 "m" "d" true initState =
      some (true,
        { visited := [], events := [], reads := [],
          probes := [("d", "m.ts"), ("d", "m.str"), ("d", "m.d.ts"), ("d", "m.d.str")] }) := by
  decide

/-- C3 counterexample: with `performSearch` true, bare reference `x` and
parent `root` on an all-miss host, the `findFile` probes are issued for
`x.ts`, `x.str`, `x.d.ts`, `x.d.str` in that order — the third probe uses
the primary declaration suffix, not the legacy one, so the claimed probe
order (`x.ts`, `x.str`, `x.d.str`, `x.d.ts`) is not the order the code
uses. -/
theorem c3_counterexample_search_probe_order :
    (resolveCode envMiss 5 "x" "root" true initState).map
        (fun r => r.2.probes.map Prod.snd) =
      some ["x.ts", "x.str", "x.d.ts", "x.d.str"] ∧
    (["x.ts", "x.str", "x.d.ts", "x.d.str"] : List String) ≠
      ["x.ts", "x.str", "x.d.str", "x.d.ts"] := by
  exact ⟨by decide, by decide⟩

/-- C8 counterexample: the dispatcher renders an error with file `f.ts`,
line 3, column 0 and message `boom` as `f.ts(3,0) : boom` — the column is
not incremented and the separator is a space followed by a colon — which
differs from the claimed rendering `f.ts(3,1): boom`. -/
theorem c8_counterexample_error_format :
    postResolutionErrorMessage "f.ts" 3 0 "boom" = "f.ts(3,0) : boom" ∧
    ("f.ts(3,0) : boom" : String) ≠
      "f.ts" ++ "(" ++ toString 3 ++ "," ++ toString (0 + 1) ++ "): " ++ "boom" := by
  exact ⟨by decide, by decide⟩

/-- C4: a `resolveCode` call whose normalized, case-folded key is already
in the visited set returns `true` immediately and leaves the state
untouched — no read, no probe, no dispatcher call — so resolving the same
key a second time within one pass adds no I/O and no dispatch beyond the
first resolution. -/
theorem c4_visited_revisit_noop (env : Env) (fuel : Nat)
    (referencePath parentPath : String) (performSearch : Bool) (st : RState)
    (h : moduleKey env (normalizeReferencePath env referencePath parentPath performSearch)
      ∈ st.visited) :
    resolveCode env (fuel + 1) referencePath parentPath performSearch st = some (true, st) := by
  simp [resolveCode, step, h]

/-- State after resolving `a.ts` once on the single-file host: one read,
one dispatched unit. -/
def c4State : RState :=
  { visited := ["A.TS"], events := [.postResolution "a.ts" "AA"],
    reads := ["a.ts"], probes := [] }

/-- Witness for C4: after the first resolution of `a.ts` (exactly one read,
one `postResolution`), the second call for the same key is the identity on
the state. -/
theorem c4_visited_revisit_noop_witness :
    resolveCode envSingle 5 "a.ts" "" false initState = some (true, c4State) ∧
    resolveCode envSingle 5 "a.ts" "" false c4State = some (true, c4State) ∧
    c4State.reads = ["a.ts"] ∧ postPaths c4State.events = ["a.ts"] :=
  ⟨by decide,
   c4_visited_revisit_noop envSingle 4 "a.ts" "" false c4State (by decide),
   by decide, by decide⟩

/-- C7: in the explicit-directive loop, a reference whose resolved absolute
path equals the resolved path of the containing file is reported as a
self-reference error through the dispatcher and skipped — no recursive
`resolveCode` call is made for it — and processing continues with the
remaining references of the file. -/
theorem c7_self_reference_skips_recursion (env : Env) (fuel : Nat) (r : FileRef)
    (rest : List FileRef) (rootDir resolvedFilePath : String) (st : RState)
    (h : env.host.resolvePath
        (if isRooted r.path then r.path else rootDir ++ "/" ++ r.path) = resolvedFilePath) :
    step env (fuel + 1) (.refsReq (r :: rest) rootDir resolvedFilePath) st =
      step env fuel (.refsReq rest rootDir resolvedFilePath)
        (st.logEvent (.postResolutionError resolvedFilePath r selfReferenceMessage)) := by
  simp [step, h]

/-- Witness for C7: on the host where `dir/m.ts` lists itself first, the
self-reference is turned into an error event and the loop continues with
`u.ts`. -/
theorem c7_self_reference_skips_recursion_witness :
    step envSelf 9 (.refsReq [⟨"m.ts", 1, 0⟩, ⟨"u.ts", 2, 0⟩] "dir" "dir/m.ts") initState =
      step envSelf 8 (.refsReq [⟨"u.ts", 2, 0⟩] "dir" "dir/m.ts")
        (initState.logEvent (.postResolutionError "dir/m.ts" ⟨"m.ts", 1, 0⟩ selfReferenceMessage)) :=
  c7_self_reference_skips_recursion envSelf 8 ⟨"m.ts", 1, 0⟩ [⟨"u.ts", 2, 0⟩]
    "dir" "dir/m.ts" initState (by decide)

/-- The four read attempts of the direct strategy, in attempt order. -/
def directReadCandidates (np : String) : List String :=
  [np, swapSourceSuffix np, changePathToDSTR (swapSourceSuffix np),
   changePathToDTS (changePathToDSTR (swapSourceSuffix np))]

/-- C9: when the direct strategy is selected on a not-yet-visited key and
all four read attempts fail, `resolveCode` returns `false` and the only
state change is the log of the four attempted reads: the visited set, the
event trace and the probe log are untouched, so a later call for the same
reference repeats the filesystem reads instead of hitting a cached
failure. -/
theorem c9_failed_direct_leaves_state (env : Env) (fuel : Nat)
    (referencePath parentPath : String) (performSearch : Bool) (st : RState)
    (hfresh : moduleKey env (normalizeReferencePath env referencePath parentPath performSearch)
      ∉ st.visited)
    (hdirect : directStrategySelected referencePath performSearch = true)
    (h1 : env.host.readFile
        (normalizeReferencePath env referencePath parentPath performSearch) = none)
    (h2 : env.host.readFile
        (swapSourceSuffix (normalizeReferencePath env referencePath parentPath performSearch)) = none)
    (h3 : env.host.readFile (changePathToDSTR
        (swapSourceSuffix (normalizeReferencePath env referencePath parentPath performSearch))) = none)
    (h4 : env.host.readFile (changePathToDTS (changePathToDSTR
        (swapSourceSuffix (normalizeReferencePath env referencePath parentPath performSearch)))) = none) :
    resolveCode env (fuel + 1) referencePath parentPath performSearch st =
      some (false,
        { st with reads := st.reads ++
            directReadCandidates (normalizeReferencePath env referencePath parentPath performSearch) }) := by
  simp [resolveCode, step, hfresh, hdirect, h1, h2, h3, h4, RState.logRead,
    directReadCandidates]

/-- Witness for C9: on the all-miss host a direct resolution of `x` fails,
logging exactly the four read attempts and changing nothing else; a second
identical call repeats the four reads. -/
theorem c9_failed_direct_leaves_state_witness :
    resolveCode envMiss 5 "x" "" false initState =
      some (false,
        { initState with reads := initState.reads ++
            directReadCandidates (normalizeReferencePath envMiss "x" "" false) }) ∧
    (resolveCode envMiss 5 "x" "" false
        { initState with reads := ["x.ts", "x.str", "x.d.str", "x.d.ts"] }).map
        (fun r => (r.1, r.2.visited, r.2.events, r.2.reads)) =
      some (false, [], [],
        ["x.ts", "x.str", "x.d.str", "x.d.ts", "x.ts", "x.str", "x.d.str", "x.d.ts"]) :=
  ⟨c9_failed_direct_leaves_state envMiss 4 "x" "" false initState
      (by decide) (by decide) (by decide) (by decide) (by decide) (by decide),
   by decide⟩

/-- Concatenation of strings is associative (list append on the character
data). -/
theorem stringAppendAssoc (a b c : String) : a ++ b ++ c = a ++ (b ++ c) := by
  rcases a with ⟨a⟩; rcases b with ⟨b⟩; rcases c with ⟨c⟩
  show String.mk ((a ++ b) ++ c) = String.mk (a ++ (b ++ c))
  rw [List.append_assoc]

/-- C8 amended: a `postResolutionError` with a nonempty message is rendered
as `<file>(<line>,<column>) : <message>` — the line and column values are
displayed exactly as passed (no increment of the column) and the colon is
preceded by a space; an empty message omits the colon part entirely. -/
theorem c8_amended_error_format (errorFile : String) (line col : Nat)
    (errorMessage : String) (h : errorMessage ≠ "") :
    postResolutionErrorMessage errorFile line col errorMessage =
      errorFile ++ "(" ++ toString line ++ "," ++ toString col ++ ") : " ++ errorMessage := by
  unfold postResolutionErrorMessage
  rw [if_neg h, ← stringAppendAssoc]
  congr 1
  rw [stringAppendAssoc]
  congr 1

/-- Witness for C8 amended: the rendering at file `f.ts`, line 3, column 0,
message `boom`. -/
theorem c8_amended_error_format_witness :
    postResolutionErrorMessage "f.ts" 3 0 "boom" =
      "f.ts" ++ "(" ++ toString 3 ++ "," ++ toString 0 ++ ") : " ++ "boom" :=
  c8_amended_error_format "f.ts" 3 0 "boom" (by decide)

/-- Per-unit processing always reports success: whatever `some` result the
unit request returns carries the boolean `true`. -/
theorem stepUnitReqFst (env : Env) (fuel : Nat) (p c : String) (st : RState)
    (r : Bool × RState) (h : step env fuel (.unitReq p c) st = some r) :
    r.1 = true := by
  cases fuel with
  | zero => simp [step] at h
  | succ fuel =>
    simp only [step] at h
    split at h
    · exact absurd h (by simp)
    · split at h
      · exact absurd h (by simp)
      · injection h with h2
        rw [← h2]

/-- C2 amended: for a call on a not-yet-visited key, `resolveCode` returns
`false` exactly when the direct strategy is selected and all four read
attempts fail; in every other case — content acquired by either strategy,
or the search strategy selected at all, even when every probe misses — it
returns `true`.  In particular the search strategy does not signal a failed
acquisition through its return value. -/
theorem c2_amended_return_values (env : Env) (fuel : Nat)
    (referencePath parentPath : String) (performSearch : Bool)
    (st : RState) (b : Bool) (st' : RState)
    (hfresh : moduleKey env (normalizeReferencePath env referencePath parentPath performSearch)
      ∉ st.visited)
    (hrun : resolveCode env (fuel + 1) referencePath parentPath performSearch st = some (b, st')) :
    b = false ↔
      directStrategySelected referencePath performSearch = true ∧
      env.host.readFile (normalizeReferencePath env referencePath parentPath performSearch) = none ∧
      env.host.readFile (swapSourceSuffix
        (normalizeReferencePath env referencePath parentPath performSearch)) = none ∧
      env.host.readFile (changePathToDSTR (swapSourceSuffix
        (normalizeReferencePath env referencePath parentPath performSearch))) = none ∧
      env.host.readFile (changePathToDTS (changePathToDSTR (swapSourceSuffix
        (normalizeReferencePath env referencePath parentPath performSearch)))) = none := by
  unfold resolveCode at hrun
  simp only [step] at hrun
  rw [show st.visited.contains
      (moduleKey env (normalizeReferencePath env referencePath parentPath performSearch)) = false
    from by simpa using hfresh] at hrun
  simp only [Bool.false_eq_true, if_false] at hrun
  cases hd : directStrategySelected referencePath performSearch with
  | true =>
    rw [hd] at hrun
    simp only [if_true] at hrun
    cases h1 : env.host.readFile
        (normalizeReferencePath env referencePath parentPath performSearch) with
    | some content =>
      rw [h1] at hrun
      have hb : b = true := stepUnitReqFst _ _ _ _ _ _ hrun
      simp [hb, h1]
    | none =>
      rw [h1] at hrun
      cases h2 : env.host.readFile (swapSourceSuffix
          (normalizeReferencePath env referencePath parentPath performSearch)) with
      | some content =>
        rw [h2] at hrun
        have hb : b = true := stepUnitReqFst _ _ _ _ _ _ hrun
        simp [hb, h2]
      | none =>
        rw [h2] at hrun
        cases h3 : env.host.readFile (changePathToDSTR (swapSourceSuffix
            (normalizeReferencePath env referencePath parentPath performSearch))) with
        | some content =>
          rw [h3] at hrun
          have hb : b = true := stepUnitReqFst _ _ _ _ _ _ hrun
          simp [hb, h3]
        | none =>
          rw [h3] at hrun
          cases h4 : env.host.readFile (changePathToDTS (changePathToDSTR (swapSourceSuffix
              (normalizeReferencePath env referencePath parentPath performSearch)))) with
          | some content =>
            rw [h4] at hrun
            have hb : b = true := stepUnitReqFst _ _ _ _ _ _ hrun
            simp [hb, h4]
          | none =>
            rw [h4] at hrun
            simp only [Option.some.injEq, Prod.mk.injEq] at hrun
            simp [← hrun.1, hd, h1, h2, h3, h4]
  | false =>
    rw [hd] at hrun
    simp only [Bool.false_eq_true, if_false] at hrun
    have hb : b = true := by
      split at hrun
      · split at hrun
        · exact stepUnitReqFst _ _ _ _ _ _ hrun
        · simp only [Option.some.injEq, Prod.mk.injEq] at hrun
          exact hrun.1.symm
      · split at hrun
        · split at hrun
          · exact stepUnitReqFst _ _ _ _ _ _ hrun
          · simp only [Option.some.injEq, Prod.mk.injEq] at hrun
            exact hrun.1.symm
        · split at hrun
          · split at hrun
            · exact stepUnitReqFst _ _ _ _ _ _ hrun
            · simp only [Option.some.injEq, Prod.mk.injEq] at hrun
              exact hrun.1.symm
          · split at hrun
            · split at hrun
              · exact stepUnitReqFst _ _ _ _ _ _ hrun
              · simp only [Option.some.injEq, Prod.mk.injEq] at hrun
                exact hrun.1.symm
            · simp only [Option.some.injEq, Prod.mk.injEq] at hrun
              exact hrun.1.symm
    simp [hb, hd]

/-- Witness for C2 amended: on the all-miss host, the direct resolution of
`x` instantiates the characterization — it returns false and indeed every
one of the four candidate reads misses. -/
theorem c2_amended_return_values_witness :
    (false = false ↔
      directStrategySelected "x" false = true ∧
      envMiss.host.readFile (normalizeReferencePath envMiss "x" "" false) = none ∧
      envMiss.host.readFile (swapSourceSuffix
        (normalizeReferencePath envMiss "x" "" false)) = none ∧
      envMiss.host.readFile (changePathToDSTR (swapSourceSuffix
        (normalizeReferencePath envMiss "x" "" false))) = none ∧
      envMiss.host.readFile (changePathToDTS (changePathToDSTR (swapSourceSuffix
        (normalizeReferencePath envMiss "x" "" false)))) = none) :=
  c2_amended_return_values envMiss 4 "x" "" false initState false
    { initState with reads := ["x.ts", "x.str", "x.d.str", "x.d.ts"] }
    (by decide) (by decide)

/-- The four `findFile` probe names of the search strategy, in probe order:
the normalized name, the source-suffix swap, the primary declaration
suffix, then the legacy declaration suffix. -/
def searchProbeCandidates (np : String) : List String :=
  [np, swapSourceSuffix np, changePathToDTS (swapSourceSuffix np),
   changePathToDSTR (changePathToDTS (swapSourceSuffix np))]

/-- C3 amended: with search requested on a bare (non-relative, non-rooted)
reference and a fresh key, `resolveCode` probes `findFile` in exactly the
order of `searchProbeCandidates` — normalized name, alternate source
suffix, then the primary declaration suffix `.d.ts`, then the legacy
declaration suffix `.d.str` — and stops at the first hit: when every probe
misses, exactly the four probes are issued in that order; when the first
probe hits, no further probe is issued. -/
theorem c3_amended_search_probe_order :
    (∀ (env : Env) (fuel : Nat) (referencePath parentPath : String) (st : RState),
      moduleKey env (normalizeReferencePath env referencePath parentPath true) ∉ st.visited →
      directStrategySelected referencePath true = false →
      env.host.findFile parentPath
        (normalizeReferencePath env referencePath parentPath true) = none →
      env.host.findFile parentPath (swapSourceSuffix
        (normalizeReferencePath env referencePath parentPath true)) = none →
      env.host.findFile parentPath (changePathToDTS (swapSourceSuffix
        (normalizeReferencePath env referencePath parentPath true))) = none →
      env.host.findFile parentPath (changePathToDSTR (changePathToDTS (swapSourceSuffix
        (normalizeReferencePath env referencePath parentPath true)))) = none →
      resolveCode env (fuel + 1) referencePath parentPath true st =
        some (true, { st with
                      probes := st.probes ++
                        (searchProbeCandidates
                            (normalizeReferencePath env referencePath parentPath true)).map
                          (fun n => (parentPath, n)) })) ∧
    (∀ (env : Env) (fuel : Nat) (referencePath parentPath : String) (st : RState)
        (rf : ResolvedFile) (c : String),
      moduleKey env (normalizeReferencePath env referencePath parentPath true) ∉ st.visited →
      directStrategySelected referencePath true = false →
      env.host.findFile parentPath
        (normalizeReferencePath env referencePath parentPath true) = some rf →
      rf.content = some c →
      env.host.preProcessFile (switchToForwardSlashes (stripQuotes rf.path)) c = ⟨[], []⟩ →
      resolveCode env (fuel + 3) referencePath parentPath true st =
        some (true,
          { st with
            visited := moduleKey env (normalizeReferencePath env referencePath parentPath true)
              :: st.visited,
            events := st.events ++
              [.postResolution (switchToForwardSlashes (stripQuotes rf.path)) c],
            probes := st.probes ++
              [(parentPath, normalizeReferencePath env referencePath parentPath true)] })) := by
  constructor
  · intro env fuel referencePath parentPath st hfresh hd m1 m2 m3 m4
    simp [resolveCode, step, hfresh, hd, m1, m2, m3, m4, RState.logProbe,
      searchProbeCandidates]
  · intro env fuel referencePath parentPath st rf c hfresh hd hfind hcontent hpre
    simp [resolveCode, step, hfresh, hd, hfind, hcontent, hpre, RState.logProbe,
      RState.logEvent]

/-- Witness for C3 amended: on the all-miss host, searching `x` from
`root` issues exactly the four probes of `searchProbeCandidates` in
order. -/
theorem c3_amended_search_probe_order_witness :
    resolveCode envMiss 5 "x" "root" true initState =
      some (true, { initState with
                    probes := initState.probes ++
                      (searchProbeCandidates
                          (normalizeReferencePath envMiss "x" "root" true)).map
                        (fun n => ("root", n)) }) :=
  c3_amended_search_probe_order.1 envMiss 4 "x" "root" initState
    (by decide) (by decide) (by decide) (by decide) (by decide) (by decide)
